import Mathlib

/-!
Verification of the mspr-obrail streaming ETL
(`src/mspr_obrail/data/scripts/stream/stream_etl.py`).

The Python code manipulates pandas DataFrames whose cells are either
strings or NaN.  We embed:
  * a Python string as `Str := List Char`;
  * a possibly-missing cell as `Option Str` (`none` models pandas NaN);
  * each DataFrame as a `List` of per-row structures;
  * pandas operations (`drop_duplicates`, `groupby().agg`, left `merge`,
    `dropna`, ...) as explicit list functions.

Row order inside a pandas groupby is sorted by key; here groups are kept
in first-occurrence order.  No verified property depends on table row
order, only on row multiplicity and contents.
-/

/-- A Python string, embedded as its list of characters. -/
abbrev Str := List Char

/-- Whitespace test used by Python's `str.strip()` (ASCII fragment;
Python also strips some further Unicode whitespace, which never occurs
in the material of this development). -/
def isPySpace (c : Char) : Bool := c.isWhitespace

/-- Right-strip: drop trailing whitespace (`str.rstrip()`). -/
def rstripStr (l : Str) : Str := ((l.reverse).dropWhile isPySpace).reverse

/-- Python `str.strip()`: drop leading then trailing whitespace. -/
def stripChars (l : Str) : Str := rstripStr (l.dropWhile isPySpace)

/-- Python `str.upper()` (ASCII). -/
def upperStr (l : Str) : Str := l.map Char.toUpper

/-- Python `str.lower()` (ASCII). -/
def lowerStr (l : Str) : Str := l.map Char.toLower

/-- Python `str.title()`: uppercase each letter that follows a
non-letter, lowercase the other letters.  The boolean argument records
whether the previous character was a letter. -/
def pyTitleAux : Bool → Str → Str
  | _, [] => []
  | prevAlpha, c :: rest =>
    (if c.isAlpha then (if prevAlpha then c.toLower else c.toUpper) else c)
      :: pyTitleAux c.isAlpha rest

/-- Python `str.title()`. -/
def pyTitle (l : Str) : Str := pyTitleAux false l

/-- Python/pandas string comparison: lexicographic on code points.
`strLe a b` means `a <= b`. -/
def strLe : Str → Str → Bool
  | [], _ => true
  | _ :: _, [] => false
  | a :: as, b :: bs => if a = b then strLe as bs else decide (a < b)

/-- Binary minimum under `strLe` (ties keep the left value). -/
def minStr (a b : Str) : Str := if strLe a b then a else b

/-- Minimum of a list of strings, `none` on the empty list — the model
of a pandas `min()` aggregate over non-null string values. -/
def listMinStr : List Str → Option Str
  | [] => none
  | s :: rest => some (rest.foldl minStr s)

/-- Python `str.split(":")`: on the empty string it returns one empty
field, and each `':'` opens a new field. -/
def splitOnColon : Str → List Str
  | [] => [[]]
  | c :: rest =>
    if c = ':' then [] :: splitOnColon rest
    else
      match splitOnColon rest with
      | [] => [[c]]
      | p :: ps => (c :: p) :: ps

/-- Value of an ASCII digit. -/
def digitVal (c : Char) : Nat := c.toNat - '0'.toNat

/-- Accumulate a decimal number over a digit list. -/
def digitsToNat (l : Str) : Nat := l.foldl (fun acc c => acc * 10 + digitVal c) 0

/-- Python `int(s)` on a string: strip whitespace, optional sign, then a
non-empty run of decimal digits; anything else raises `ValueError`,
modelled as `none`.  (Python additionally accepts underscore separators
and non-ASCII digits; no claim involves those.) -/
def pyInt (s : Str) : Option Int :=
  let t := stripChars s
  match t with
  | '+' :: ds =>
    if ds ≠ [] ∧ ds.all Char.isDigit then some (digitsToNat ds) else none
  | '-' :: ds =>
    if ds ≠ [] ∧ ds.all Char.isDigit then some (-(digitsToNat ds : Int)) else none
  | ds =>
    if ds ≠ [] ∧ ds.all Char.isDigit then some (digitsToNat ds) else none

/-- Python `f"{h:02d}"` for `0 ≤ h < 100`: two-digit zero-padded. -/
def pad2 (n : Nat) : Str :=
  if n < 10 then ['0', Char.ofNat ('0'.toNat + n)]
  else [Char.ofNat ('0'.toNat + n / 10), Char.ofNat ('0'.toNat + n % 10)]

/-- `str(cell)` on a possibly-missing pandas cell: NaN stringifies to
`"nan"` (this is what `astype(str)` and f-string interpolation do). -/
def cellStr (v : Option Str) : Str :=
  match v with
  | none => ['n', 'a', 'n']
  | some s => s

/-- Deduplication keeping first occurrences, the model of pandas
`drop_duplicates()` (which also treats NaN cells as equal — `Option`
equality does the same).  `seen` accumulates values already emitted. -/
def dedupAux [DecidableEq α] (seen : List α) : List α → List α
  | [] => []
  | a :: rest =>
    if a ∈ seen then dedupAux seen rest else a :: dedupAux (a :: seen) rest

/-- `drop_duplicates()` over whole rows. -/
def dedupKeepFirst [DecidableEq α] (l : List α) : List α := dedupAux [] l

/-- `drop_duplicates(subset=...)`: deduplicate by a key projection,
keeping the first row of each key. -/
def dedupByAux [DecidableEq β] (f : α → β) (seen : List β) : List α → List α
  | [] => []
  | a :: rest =>
    if f a ∈ seen then dedupByAux f seen rest
    else a :: dedupByAux f (f a :: seen) rest

/-- `drop_duplicates(subset=...)` with key projection `f`. -/
def dedupByKey [DecidableEq β] (f : α → β) (l : List α) : List α := dedupByAux f [] l

/-- First-match lookup in an association list (model of a Python dict
built with distinct keys). -/
def lookupStr (k : Str) : List (Str × Str) → Option Str
  | [] => none
  | p :: rest => if p.1 = k then some p.2 else lookupStr k rest

/-- `Option.orElse` without the thunk, for readability. -/
def optOr (a b : Option α) : Option α :=
  match a with
  | some x => some x
  | none => b

/-- Surrogate-key assignment: number a list `n, n+1, ...` and build rows
with a constructor receiving the key. -/
def assignKeysFrom (n : Nat) (f : Nat → α → β) : List α → List β
  | [] => []
  | a :: rest => f n a :: assignKeysFrom (n + 1) f rest

/-- pandas `reset_index` + `insert(0, key, index + 1)`: dense surrogate
keys starting at 1. -/
def assignKeys (f : Nat → α → β) (l : List α) : List β := assignKeysFrom 1 f l

/-! ## Normalisation and classification (`stream_etl.py` §“helpers”) -/

/-- `_normalize_country` on a known string (the `value is None` branch of
the Python function returns `""`; DataFrame cells are never `None`). -/
def normalizeCountry (s : Str) : Str := upperStr (stripChars s)

/-- `_normalize_country` applied to a DataFrame cell: a NaN cell reaches
the function as a float, is stringified to `"nan"`, and normalises to
`"NAN"`. -/
def normalizeCountryCell (v : Option Str) : Str := normalizeCountry (cellStr v)

/-- `_normalize_key`. -/
def normalizeKey (s : Str) : Str := lowerStr (stripChars s)

/-- `_normalize_station_name` applied to a DataFrame cell: a NaN cell is
stringified to `"nan"` and title-cases to `"Nan"`. -/
def normalizeStationCell (v : Option Str) : Str := pyTitle (stripChars (cellStr v))

/-- `_map_country(value, mapping)`: look the lowercased key up in the
country mapping, falling back to plain country normalisation. -/
def mapCountry (mapping : List (Str × Str)) (s : Str) : Str :=
  match lookupStr (normalizeKey s) mapping with
  | some code => code
  | none => normalizeCountry s

/-- The third emitted field of `_normalize_time`: `parts[2]` when the
split has more than two fields, else `"00"`. -/
def thirdField (parts : List Str) : Str :=
  if 2 < parts.length then parts.getD 2 [] else ['0', '0']

/-- Reassembled `f"{hour:02d}:{parts[1]}:{...}"`. -/
def formatTime (h : Nat) (p1 p2 : Str) : Str := pad2 h ++ ':' :: p1 ++ ':' :: p2

/-- `_normalize_time`.  `none` input models Python `None`; the result is
`Except` because `int(parts[0])` raises `ValueError` on a non-numeric
hour whenever the value splits into at least two fields. -/
def normalizeTime (v : Option Str) : Except Unit (Option Str) :=
  match v with
  | none => .ok none
  | some s =>
    let text := stripChars s
    if text.isEmpty then .ok none
    else
      let parts := splitOnColon text
      if parts.length < 2 then .ok (some text)
      else
        match pyInt (parts.getD 0 []) with
        | none => .error ()
        | some n => .ok (some (formatTime ((n % 24).toNat) (parts.getD 1 []) (thirdField parts)))

/-- `_normalize_time` on a DataFrame cell: NaN stringifies to `"nan"`
(so a missing time normalises to the *string* `"nan"`, not to absent). -/
def normalizeTimeCell (v : Option Str) : Except Unit (Option Str) :=
  normalizeTime (some (cellStr v))

/-- Hour extraction inside `_is_night_time`:
`int(text.split(":")[0])` over the stripped, lowercased value. -/
def nightHour (s : Str) : Option Int :=
  pyInt ((splitOnColon (lowerStr (stripChars s))).getD 0 [])

/-- `_is_night_time`.  `none` models an absent value (Python `None` /
pandas NA, both falsy or stringifying to `"nan"`). -/
def isNightTime (v : Option Str) : Bool :=
  match v with
  | none => false
  | some s =>
    if s.isEmpty then false
    else
      let text := lowerStr (stripChars s)
      if text.isEmpty || text = ['n', 'a', 'n'] then false
      else
        match nightHour s with
        | none => false
        | some h => decide (20 ≤ h % 24) || decide (h % 24 < 6)

/-! ## Dates (`pd.to_datetime(..., format="%Y%m%d", errors="coerce")`) -/

/-- A calendar date. -/
structure PDate where
  y : Nat
  m : Nat
  d : Nat
deriving DecidableEq, Repr

/-- Gregorian leap year. -/
def isLeap (y : Nat) : Bool := (y % 4 = 0 ∧ y % 100 ≠ 0) ∨ y % 400 = 0

/-- Days in a month. -/
def daysInMonth (y m : Nat) : Nat :=
  if m = 2 then (if isLeap y then 29 else 28)
  else if m = 4 ∨ m = 6 ∨ m = 9 ∨ m = 11 then 30
  else 31

/-- Strict `%Y%m%d` parse: exactly eight ASCII digits forming a valid
calendar date, anything else is coerced to NaT (`none`). -/
def parseDate8 (s : Str) : Option PDate :=
  if s.length = 8 ∧ s.all Char.isDigit then
    let y := digitsToNat (s.take 4)
    let m := digitsToNat ((s.drop 4).take 2)
    let d := digitsToNat (s.drop 6)
    if 1 ≤ m ∧ m ≤ 12 ∧ 1 ≤ d ∧ d ≤ daysInMonth y m then some ⟨y, m, d⟩ else none
  else none

/-- `int(d.strftime("%Y%m%d"))`: the meaningful `dim_date` key. -/
def dateKeyOf (d : PDate) : Nat := d.y * 10000 + d.m * 100 + d.d

/-! ## Row types -/

/-- One row of a feed's `stops.txt` as read by the extractor (only the
columns `_is_cross_border_by_stops` touches are kept). -/
structure StopRow where
  stop_id : Option Str
  stop_country : Option Str
deriving DecidableEq, Repr

/-- The `stops.txt` table: its rows plus whether the optional
`stop_country` column is present at all. -/
structure StopsTable where
  rows : List StopRow
  hasCountryCol : Bool
deriving Repr

/-- One normalised trip segment (a row of `segments_df`).  `operator`
and `country` come from the source descriptor and are always strings;
`is_night` is filled by `transform_trip_segments` (false before it). -/
structure SegmentRow where
  country : Str
  operator : Str
  trip_id : Option Str
  route_id : Option Str
  departure_stop_id : Option Str
  arrival_stop_id : Option Str
  departure_time : Option Str
  arrival_time : Option Str
  departure_station : Str
  arrival_station : Str
  departure_lat : Option Str
  departure_lon : Option Str
  arrival_lat : Option Str
  arrival_lon : Option Str
  is_cross_border : Bool
  service_date : Option Str
  is_night : Bool
deriving DecidableEq, Repr

/-- One row of the night-train registry after `transform_night_trains`
(country already `_normalize_country`-ed, `is_night = True` on every
row). -/
structure NightRow where
  operator_id : Option Str
  operator_name : Option Str
  operator_country : Str
  operator_url : Option Str
deriving DecidableEq, Repr

/-- One row of the geography registry CSV. -/
structure GeoRow where
  cntr_id : Option Str
  name_engl : Option Str
  name_fren : Option Str
  iso3_code : Option Str
  eu_stat : Option Str
  efta_stat : Option Str
  cc_stat : Option Str
deriving DecidableEq, Repr

/-- One row of `calendar.txt`. -/
structure CalendarRow where
  service_id : Option Str
  start_date : Option Str
deriving DecidableEq, Repr

/-- One row of `calendar_dates.txt`. -/
structure CalendarDateRow where
  service_id : Option Str
  date : Option Str
  exception_type : Option Str
deriving DecidableEq, Repr

/-- A `dim_country` row. -/
structure CountryRow where
  country_key : Nat
  country_code : Str
  country_name_en : Option Str
  country_name_fr : Option Str
  iso3_code : Option Str
  eu_member : Option Str
  efta_member : Option Str
  candidate_member : Option Str
deriving DecidableEq, Repr

/-- A `dim_operator` row. -/
structure OperatorRow where
  operator_key : Nat
  operator_id : Str
  operator_name : Option Str
  operator_country : Option Str
  is_night_operator : Bool
deriving DecidableEq, Repr

/-- A `dim_station` row. -/
structure StationRow where
  station_key : Nat
  stop_id : Str
  station_name : Str
  station_lat : Option Str
  station_lon : Option Str
  country_code : Str
deriving DecidableEq, Repr

/-- A `dim_route` row. -/
structure RouteRow where
  route_key : Nat
  route_id : Str
  operator_id : Str
  country_code : Str
deriving DecidableEq, Repr

/-- A `dim_time` row. -/
structure TimeRow where
  time_key : Nat
  time_value : Str
  hour : Int
  minute : Int
  second : Int
  is_night : Bool
deriving DecidableEq, Repr

/-- A `dim_date` row. -/
structure DateRow where
  date_key : Nat
  date_value : PDate
  year : Nat
  month : Nat
  day : Nat
deriving DecidableEq, Repr

/-! ## Cross-border detection (`_is_cross_border_by_stops`) -/

/-- pandas `stops_df["stop_id"] == x` on a cell: NaN compares unequal to
everything, including another NaN. -/
def pdCellEq (a b : Option Str) : Bool :=
  match a, b with
  | some x, some y => x == y
  | _, _ => false

/-- `_is_cross_border_by_stops(stops_df, departure_stop_id,
arrival_stop_id)`: false on an empty table or a missing `stop_country`
column or an unmatched stop id; otherwise compare the normalised
`stop_country` of the *first* matching row on each side (a NaN country
stringifies to `"nan"` and normalises to `"NAN"`). -/
def isCrossBorderByStops (t : StopsTable) (dep arr : Option Str) : Bool :=
  if t.rows.isEmpty then false
  else if !t.hasCountryCol then false
  else
    match t.rows.find? (fun r => pdCellEq r.stop_id dep),
          t.rows.find? (fun r => pdCellEq r.stop_id arr) with
    | some dRow, some aRow =>
      normalizeCountryCell dRow.stop_country != normalizeCountryCell aRow.stop_country
    | _, _ => false

/-- The per-segment flag assignment in `_extract_segments_from_zip`
(lines 767–777): apply `_is_cross_border_by_stops` when the feed has a
`stop_country` column, else a constant `False` column. -/
def crossBorderFlag (t : StopsTable) (dep arr : Option Str) : Bool :=
  if t.hasCountryCol then isCrossBorderByStops t dep arr else false

/-! ## Service dates (`_build_service_date_map`) -/

/-- pandas `groupby(key)[val].min().dropna()` over (key, value) cell
pairs: for each non-null key in first-occurrence order, the minimum of
its non-null values; groups whose values are all null are dropped
(`groupby` itself drops null keys). -/
def groupMinBy (l : List (Option Str × Option Str)) : List (Str × Str) :=
  (dedupKeepFirst (l.filterMap Prod.fst)).filterMap
    (fun k => (listMinStr ((l.filter (fun r => r.1 == some k)).filterMap Prod.snd)).map
      (fun v => (k, v)))

/-- `_build_service_date_map(calendar_df, calendar_dates_df)`.
`hasExcCol` records whether `calendar_dates.txt` carries an
`exception_type` column.  Phase 1 inserts the minimum date of each
service's `exception_type == "1"` rows; phase 2 `setdefault`s the
minimum `start_date` of each service from `calendar.txt`. -/
def buildServiceDateMap (cal : List CalendarRow) (cd : List CalendarDateRow)
    (hasExcCol : Bool) : List (Str × Str) :=
  let m1 : List (Str × Str) :=
    if !cd.isEmpty && hasExcCol then
      let added := cd.filter (fun r => cellStr r.exception_type == ['1'])
      if added.isEmpty then []
      else groupMinBy (added.map (fun r => (r.service_id, r.date)))
    else []
  let m2 : List (Str × Str) :=
    if !cal.isEmpty then groupMinBy (cal.map (fun r => (r.service_id, r.start_date)))
    else []
  m1 ++ m2.filter (fun p => (lookupStr p.1 m1).isNone)

/-- What the specification says the derived service date is (§4.2):
“the minimum date from calendar-exception "added" rows (exception type =
addition) if present, else the minimum start date from the calendar
table, else left blank”.  A feed whose `calendar_dates` table lacks the
exception-type column has no rows of type addition. -/
def specServiceDate (cal : List CalendarRow) (cd : List CalendarDateRow)
    (hasExcCol : Bool) (sid : Str) : Option Str :=
  let addedRows :=
    if hasExcCol then
      cd.filter (fun r => cellStr r.exception_type == ['1'] && r.service_id == some sid)
    else []
  let calRows := cal.filter (fun r => r.service_id == some sid)
  optOr (listMinStr (addedRows.filterMap (fun r => r.date)))
        (listMinStr (calRows.filterMap (fun r => r.start_date)))

/-! ## `transform_trip_segments` -/

/-- The `drop_duplicates(subset=CRITICAL_COLUMNS + ["operator",
"route_id"])` key of `transform_trip_segments`. -/
structure CritKey where
  departure_stop_id : Option Str
  arrival_stop_id : Option Str
  departure_time : Option Str
  arrival_time : Option Str
  operator : Str
  route_id : Option Str
deriving DecidableEq, Repr

/-- Critical-column key of a segment row. -/
def criticalKey (s : SegmentRow) : CritKey :=
  ⟨s.departure_stop_id, s.arrival_stop_id, s.departure_time, s.arrival_time,
   s.operator, s.route_id⟩

/-- `replace("", pd.NA)` on a time cell. -/
def emptyToNone (v : Option Str) : Option Str :=
  match v with
  | some s => if s.isEmpty then none else some s
  | none => none

/-- Per-row part of `transform_trip_segments`: stringify-and-strip the
service date (NaN becomes the string `"nan"`), blank times become NA,
the departure time falls back to the arrival time, and the night flag is
computed from the resulting departure time.  (The wall-clock
`load_timestamp` column is not modelled.) -/
def transformSegmentRow (s : SegmentRow) : SegmentRow :=
  let dep := emptyToNone s.departure_time
  let arr := emptyToNone s.arrival_time
  let dep2 := optOr dep arr
  { s with
    service_date := some (stripChars (cellStr s.service_date))
    departure_time := dep2
    arrival_time := arr
    is_night := isNightTime dep2 }

/-- `transform_trip_segments`: dedup on the critical key, normalise the
columns, then `dropna(subset=CRITICAL_COLUMNS)`. -/
def transformTripSegments (l : List SegmentRow) : List SegmentRow :=
  if l.isEmpty then l
  else
    (((dedupByKey criticalKey l).map transformSegmentRow).filter
      (fun s => s.departure_stop_id.isSome && s.arrival_stop_id.isSome
        && s.departure_time.isSome && s.arrival_time.isSome))

/-! ## Dimension builders -/

/-- A geography row after the `CNTR_ID` column has been uppercased
(`astype(str).str.upper()`; a NaN id stringifies to `"nan"` first, so it
becomes the country `"NAN"` and survives the later `dropna`). -/
structure GeoNorm where
  country_code : Str
  name_engl : Option Str
  name_fren : Option Str
  iso3_code : Option Str
  eu_stat : Option Str
  efta_stat : Option Str
  cc_stat : Option Str
deriving DecidableEq, Repr

/-- `_build_dim_country`: empty registry gives an empty dimension; else
uppercase the country id, deduplicate whole rows, and assign dense
keys. -/
def buildDimCountry (geo : List GeoRow) : List CountryRow :=
  if geo.isEmpty then []
  else
    assignKeys
      (fun k r =>
        ⟨k, r.country_code, r.name_engl, r.name_fren, r.iso3_code,
         r.eu_stat, r.efta_stat, r.cc_stat⟩)
      (dedupKeepFirst (geo.map (fun r =>
        GeoNorm.mk (upperStr (cellStr r.cntr_id)) r.name_engl r.name_fren
          r.iso3_code r.eu_stat r.efta_stat r.cc_stat)))

/-- Python dict insertion with overwrite (keys keep their first
position).  Lookup is `lookupStr` (first match — keys are unique). -/
def dictInsert (m : List (Str × Str)) (k v : Str) : List (Str × Str) :=
  if m.any (fun p => p.1 == k) then m.map (fun p => if p.1 = k then (k, v) else p)
  else m ++ [(k, v)]

/-- The inserts contributed by one `dim_country` row in
`_build_country_mapping`: the code itself keyed by its lowercase form,
then each of the English/French/ISO3 names.  A NaN name cell is truthy
in Python and stringifies to `"nan"`, adding a `"nan" ↦ code` entry; a
code that strips to empty contributes nothing. -/
def countryMappingInserts (r : CountryRow) : List (Str × Str) :=
  let code := upperStr (stripChars r.country_code)
  if code.isEmpty then []
  else
    (normalizeKey code, code) ::
      ([r.country_name_en, r.country_name_fr, r.iso3_code].filterMap
        (fun v => match v with
          | none => some (normalizeKey (cellStr none), code)
          | some s => if s.isEmpty then none else some (normalizeKey s, code)))

/-- `_build_country_mapping`. -/
def buildCountryMapping (dim : List CountryRow) : List (Str × Str) :=
  (dim.flatMap countryMappingInserts).foldl (fun m p => dictInsert m p.1 p.2) []

/-! ### `_build_dim_operator` -/

/-- One row of the concatenated operator source frame (segments side
with `is_night_operator = False`, night-registry side with `True`). -/
structure OpSrcRow where
  operator_id : Option Str
  operator_name : Option Str
  operator_country : Option Str
  is_night_operator : Bool
deriving DecidableEq, Repr

/-- Operator source row contributed by one trip segment: id and name are
the feed operator, country is the mapped feed country, never
night-flagged — the segment's own `is_night` column does not enter. -/
def opSrcFromSeg (m : List (Str × Str)) (s : SegmentRow) : OpSrcRow :=
  ⟨some s.operator, some s.operator, some (mapCountry m s.country), false⟩

/-- Operator source row contributed by one night-registry row. -/
def opSrcFromNight (m : List (Str × Str)) (n : NightRow) : OpSrcRow :=
  ⟨n.operator_id, n.operator_name, some (mapCountry m n.operator_country), true⟩

/-- `groupby("operator_id").agg({"operator_name": "first",
"operator_country": "first", "is_night_operator": "max"})` for one
group: pandas `"first"` takes the first *non-null* value, `"max"` on a
boolean column is a logical OR. -/
def aggOperatorGroup (k : Nat) (id : Str) (rows : List OpSrcRow) : OperatorRow :=
  ⟨k, id, (rows.filterMap (fun r => r.operator_name)).head?,
   (rows.filterMap (fun r => r.operator_country)).head?,
   rows.any (fun r => r.is_night_operator)⟩

/-- `_build_dim_operator`: concatenate segment- and registry-derived
operator rows, drop null operator ids, group by operator id and
aggregate. -/
def buildDimOperator (segs : List SegmentRow) (night : List NightRow)
    (m : List (Str × Str)) : List OperatorRow :=
  let combined := segs.map (opSrcFromSeg m) ++ night.map (opSrcFromNight m)
  let filtered := combined.filter (fun r => r.operator_id.isSome)
  assignKeys
    (fun k id => aggOperatorGroup k id (filtered.filter (fun r => r.operator_id == some id)))
    (dedupKeepFirst (filtered.filterMap (fun r => r.operator_id)))

/-! ### `_build_dim_station` -/

/-- A station attribute tuple before key assignment: the columns
selected and renamed from one side of the segments frame.
`country_code` here is the raw feed country — the country mapping is
applied only *after* deduplication. -/
structure StationSrcRow where
  stop_id : Option Str
  station_name : Str
  station_lat : Option Str
  station_lon : Option Str
  country_code : Str
deriving DecidableEq, Repr

/-- The departure-side and arrival-side station rows of all segments
(concatenated in that order, like `pd.concat([dep, arr])`). -/
def stationSourceRows (segs : List SegmentRow) : List StationSrcRow :=
  segs.map (fun s =>
    ⟨s.departure_stop_id, s.departure_station, s.departure_lat, s.departure_lon, s.country⟩)
  ++ segs.map (fun s =>
    ⟨s.arrival_stop_id, s.arrival_station, s.arrival_lat, s.arrival_lon, s.country⟩)

/-- `_build_dim_station`: drop null stop ids, deduplicate *whole*
attribute rows, then map the country column and assign dense keys. -/
def buildDimStation (segs : List SegmentRow) (m : List (Str × Str)) : List StationRow :=
  assignKeys
    (fun k r =>
      ⟨k, r.stop_id.getD [], r.station_name, r.station_lat, r.station_lon,
       mapCountry m r.country_code⟩)
    (dedupKeepFirst ((stationSourceRows segs).filter (fun r => r.stop_id.isSome)))

/-! ### `_build_dim_route` -/

/-- A route tuple before key assignment (country already mapped — the
mapping runs before `dropna`/`drop_duplicates` here). -/
structure RouteSrcRow where
  route_id : Option Str
  operator_id : Str
  country_code : Str
deriving DecidableEq, Repr

/-- `_build_dim_route`. -/
def buildDimRoute (segs : List SegmentRow) (m : List (Str × Str)) : List RouteRow :=
  assignKeys
    (fun k r => ⟨k, r.route_id.getD [], r.operator_id, r.country_code⟩)
    (dedupKeepFirst
      ((segs.map (fun s =>
          RouteSrcRow.mk s.route_id s.operator (mapCountry m s.country))).filter
        (fun r => r.route_id.isSome)))

/-! ### `_build_dim_time` -/

/-- `pd.to_numeric(..., errors="coerce")` restricted to integer-looking
strings (fractional inputs, which would parse to floats and be truncated
by `astype(int)`, do not occur in the verified claims). -/
def toNumericInt (s : Str) : Option Int := pyInt s

/-- Decompose one distinct time value into hour/minute/second, dropping
it when any component fails to parse (`dropna(subset=["hour", "minute",
"second"])`).  `parts[1]` of a one-field split is a missing cell, hence
unparsable; a missing `parts[2]` is `fillna("0")`-ed to zero. -/
def timeComponents (t : Str) : Option (Int × Int × Int) :=
  let parts := splitOnColon t
  match toNumericInt (parts.getD 0 []),
        (parts.get? 1).bind toNumericInt,
        toNumericInt ((parts.get? 2).getD ['0']) with
  | some h, some mi, some se => some (h, mi, se)
  | _, _, _ => none

/-- `_build_dim_time`: concatenate departure then arrival times, drop
NA, drop the literal strings `""`/`"na"`/`"nan"`/`"none"`
(case-insensitively), deduplicate, split into components and flag
`is_night = (hour >= 20) | (hour < 6)`. -/
def buildDimTime (segs : List SegmentRow) : List TimeRow :=
  let times := (segs.map (fun s => s.departure_time)
    ++ segs.map (fun s => s.arrival_time)).filterMap id
  let times := times.filter (fun t =>
    !(lowerStr t == [] || lowerStr t == ['n', 'a'] || lowerStr t == ['n', 'a', 'n']
      || lowerStr t == ['n', 'o', 'n', 'e']))
  assignKeys
    (fun k p => ⟨k, p.1, p.2.1, p.2.2.1, p.2.2.2, decide (20 ≤ p.2.1) || decide (p.2.1 < 6)⟩)
    ((dedupKeepFirst times).filterMap (fun t => (timeComponents t).map (fun c => (t, c))))

/-! ### `_build_dim_date` -/

/-- `_build_dim_date` (the segments frame always carries a
`service_date` column, so the `load_timestamp` fallback branch is dead
in this pipeline): parse distinct service dates, keep the valid ones,
and key each row by its own `YYYYMMDD` integer — *not* by a dense
sequence. -/
def buildDimDate (segs : List SegmentRow) : List DateRow :=
  (dedupKeepFirst (segs.filterMap (fun s => s.service_date.bind parseDate8))).map
    (fun d => ⟨dateKeyOf d, d, d.y, d.m, d.d⟩)

/-! ## `_build_fact_segments` -/

/-- A fact row in construction: the originating segment, its mapped
country code, and the foreign keys resolved so far. -/
structure FactWork where
  seg : SegmentRow
  country_code : Str
  country_key : Option Nat
  operator_key : Option Nat
  route_key : Option Nat
  departure_station_key : Option Nat
  arrival_station_key : Option Nat
  departure_time_key : Option Nat
  arrival_time_key : Option Nat
  date_key : Option Nat
deriving Repr

/-- A finished `fact_trip_segment` row. -/
structure FactRow where
  fact_trip_key : Nat
  country_key : Option Nat
  operator_key : Option Nat
  route_key : Option Nat
  departure_station_key : Option Nat
  arrival_station_key : Option Nat
  departure_time_key : Option Nat
  arrival_time_key : Option Nat
  date_key : Option Nat
  trip_business_id : Option Str
  is_night : Bool
  is_cross_border : Bool
deriving DecidableEq, Repr

/-- Start of fact assembly for one segment: map the feed country, no
keys resolved yet. -/
def initFactWork (m : List (Str × Str)) (s : SegmentRow) : FactWork :=
  ⟨s, mapCountry m s.country, none, none, none, none, none, none, none, none⟩

/-- One left `merge` against a dimension: each fact row in construction
is joined to *every* matching dimension row (so several matches multiply
the row, as pandas does), and a row without a match is kept once with a
null key. -/
def joinOne (getKey : δ → Nat) (cond : FactWork → δ → Bool)
    (setKey : FactWork → Option Nat → FactWork) (dim : List δ)
    (rows : List FactWork) : List FactWork :=
  rows.flatMap (fun r =>
    let hits := dim.filter (cond r)
    if hits.isEmpty then [setKey r none]
    else hits.map (fun d => setKey r (some (getKey d))))

/-- The fact `date_value` column: `pd.to_datetime(service_date,
format="%Y%m%d", errors="coerce").dt.date` (a NaN cell gives NaT). -/
def factDateValue (s : SegmentRow) : Option PDate := s.service_date.bind parseDate8

/-- The fact-side join value of a time column: `astype(str)` turns a
missing time into the string `"nan"`. -/
def factTimeStr (v : Option Str) : Str := cellStr v

/-- `_build_fact_segments`: start from the normalised segments, resolve
each dimension key by an equality left join on its natural key — country
code, operator id, (route id, operator id, country code), (stop id,
country code) twice, time string twice, date value — then assign the
dense fact key.  All joins are left joins: a miss keeps the row with a
null key, while several matches multiply it. -/
def buildFactSegments (segs : List SegmentRow) (dimC : List CountryRow)
    (dimO : List OperatorRow) (dimS : List StationRow) (dimR : List RouteRow)
    (dimT : List TimeRow) (dimD : List DateRow) (m : List (Str × Str)) : List FactRow :=
  let rows := segs.map (initFactWork m)
  let rows := joinOne (fun d => d.country_key)
    (fun w d => d.country_code == w.country_code)
    (fun w k => { w with country_key := k }) dimC rows
  let rows := joinOne (fun d => d.operator_key)
    (fun w d => d.operator_id == w.seg.operator)
    (fun w k => { w with operator_key := k }) dimO rows
  let rows := joinOne (fun d => d.route_key)
    (fun w d => some d.route_id == w.seg.route_id && d.operator_id == w.seg.operator
      && d.country_code == w.country_code)
    (fun w k => { w with route_key := k }) dimR rows
  let rows := joinOne (fun d => d.station_key)
    (fun w d => some d.stop_id == w.seg.departure_stop_id && d.country_code == w.country_code)
    (fun w k => { w with departure_station_key := k }) dimS rows
  let rows := joinOne (fun d => d.station_key)
    (fun w d => some d.stop_id == w.seg.arrival_stop_id && d.country_code == w.country_code)
    (fun w k => { w with arrival_station_key := k }) dimS rows
  let rows := joinOne (fun d => d.time_key)
    (fun w d => d.time_value == factTimeStr w.seg.departure_time)
    (fun w k => { w with departure_time_key := k }) dimT rows
  let rows := joinOne (fun d => d.time_key)
    (fun w d => d.time_value == factTimeStr w.seg.arrival_time)
    (fun w k => { w with arrival_time_key := k }) dimT rows
  let rows := joinOne (fun d => d.date_key)
    (fun w d => some d.date_value == factDateValue w.seg)
    (fun w k => { w with date_key := k }) dimD rows
  assignKeys
    (fun k w =>
      ⟨k, w.country_key, w.operator_key, w.route_key, w.departure_station_key,
       w.arrival_station_key, w.departure_time_key, w.arrival_time_key, w.date_key,
       w.seg.trip_id, w.seg.is_night, w.seg.is_cross_border⟩)
    rows

/-! ## `transform_night_trains` -/

/-- One raw row of the night-train registry CSV. -/
structure RawNightRow where
  agency_id : Option Str
  agency_name : Option Str
  agency_state : Option Str
  agency_url : Option Str
deriving DecidableEq, Repr

/-- `transform_night_trains`: rename the agency columns, normalise the
country, flag every row `is_night = True` (carried implicitly — every
`NightRow` is night), and deduplicate.  (The `load_timestamp` column is
not modelled.) -/
def transformNightTrains (l : List RawNightRow) : List NightRow :=
  dedupKeepFirst (l.map (fun r =>
    NightRow.mk r.agency_id r.agency_name (normalizeCountryCell r.agency_state) r.agency_url))

/-! ## Warehouse load (`run_stream_etl`, lines 990–1011) -/

/-- The warehouse contents seen by a reader: the seven star-schema
tables plus the stop-itinerary table. -/
structure Warehouse where
  dim_country : List CountryRow
  dim_operator : List OperatorRow
  dim_station : List StationRow
  dim_route : List RouteRow
  dim_time : List TimeRow
  dim_date : List DateRow
  fact_trip_segment : List FactRow
  trip_stop : List Str
deriving Repr

/-- Modelled from the spec: the transaction/commit primitives live in
the database collaborator (psycopg2/PostgreSQL), outside this
repository's sources.  Per §4.5 the loader executes, *inside one
transaction*, (1) schema creation, (2) one `TRUNCATE` of all tables,
(3) eight bulk `COPY`s, and commits once at the end; uncommitted work is
invisible and a failure at any of the 10 statements rolls everything
back.  `failAt = some i` injects a failure at statement `i`;
`none` is a clean run.  The result is the post-run *visible* state. -/
def loadWarehouse (ws : Warehouse) (tables : Warehouse) (failAt : Option Nat) : Warehouse :=
  match failAt with
  | some i => if i < 10 then ws else tables
  | none => tables

/-- Number of statements issued inside the load transaction: schema
execution, the truncate, and the eight `COPY`s. -/
def loadStatementCount : Nat := 10

/-- `run_stream_etl`, downstream of source resolution and download: the
per-source extraction results come in as `extracted`, the auxiliary
registries as `rawNight`/`geo`, the pre-run warehouse as `ws`, and
`failAt` the injected transaction failure.  Returns the visible
warehouse and whether a database connection was opened at all.
Extraction appends only non-empty frames to `segments_list`; when the
list stays empty the function returns before touching the registries or
the database. -/
def runStreamEtl (extracted : List (List SegmentRow)) (rawNight : List RawNightRow)
    (geo : List GeoRow) (ws : Warehouse) (failAt : Option Nat) : Warehouse × Bool :=
  let segmentsList := extracted.filter (fun d => !d.isEmpty)
  if segmentsList.isEmpty then (ws, false)
  else
    let segs := transformTripSegments segmentsList.flatten
    let night := transformNightTrains rawNight
    let dimC := buildDimCountry geo
    let m := buildCountryMapping dimC
    let dimO := buildDimOperator segs night m
    let dimS := buildDimStation segs m
    let dimR := buildDimRoute segs m
    let dimT := buildDimTime segs
    let dimD := buildDimDate segs
    let fact := buildFactSegments segs dimC dimO dimS dimR dimT dimD m
    (loadWarehouse ws ⟨dimC, dimO, dimS, dimR, dimT, dimD, fact, []⟩ failAt, true)

/-! ## General lemmas about the embedding's list primitives -/

theorem mem_dedupAux [DecidableEq α] (seen : List α) (l : List α) (a : α) :
    a ∈ dedupAux seen l ↔ a ∈ l ∧ a ∉ seen := by
  induction l generalizing seen with
  | nil => simp [dedupAux]
  | cons b rest ih =>
    by_cases hb : b ∈ seen
    · rw [dedupAux, if_pos hb, ih]
      constructor
      · rintro ⟨h1, h2⟩; exact ⟨List.mem_cons_of_mem _ h1, h2⟩
      · rintro ⟨h1, h2⟩
        rcases List.mem_cons.mp h1 with rfl | h1
        · exact absurd hb h2
        · exact ⟨h1, h2⟩
    · rw [dedupAux, if_neg hb]
      constructor
      · intro h
        rcases List.mem_cons.mp h with rfl | h
        · exact ⟨List.mem_cons_self _ _, hb⟩
        · obtain ⟨h1, h2⟩ := (ih _).mp h
          exact ⟨List.mem_cons_of_mem _ h1,
            fun hs => h2 (List.mem_cons_of_mem _ hs)⟩
      · rintro ⟨h1, h2⟩
        rcases List.mem_cons.mp h1 with rfl | h1
        · exact List.mem_cons_self _ _
        · by_cases hab : a = b
          · exact hab ▸ List.mem_cons_self _ _
          · refine List.mem_cons_of_mem _ ((ih _).mpr ⟨h1, fun hs => ?_⟩)
            rcases List.mem_cons.mp hs with h | h
            · exact hab h
            · exact h2 h

theorem nodup_dedupAux [DecidableEq α] (seen : List α) (l : List α) :
    (dedupAux seen l).Nodup := by
  induction l generalizing seen with
  | nil => simp [dedupAux]
  | cons b rest ih =>
    by_cases hb : b ∈ seen
    · rw [dedupAux, if_pos hb]; exact ih seen
    · rw [dedupAux, if_neg hb]
      refine List.nodup_cons.mpr ⟨fun hmem => ?_, ih (b :: seen)⟩
      exact ((mem_dedupAux _ _ _).mp hmem).2 (List.mem_cons_self b _)

theorem mem_dedupKeepFirst [DecidableEq α] (l : List α) (a : α) :
    a ∈ dedupKeepFirst l ↔ a ∈ l := by
  simp [dedupKeepFirst, mem_dedupAux]

theorem nodup_dedupKeepFirst [DecidableEq α] (l : List α) :
    (dedupKeepFirst l).Nodup := nodup_dedupAux [] l

theorem assignKeysFrom_length (n : Nat) (f : Nat → α → β) (l : List α) :
    (assignKeysFrom n f l).length = l.length := by
  induction l generalizing n with
  | nil => rfl
  | cons a rest ih => simp [assignKeysFrom, ih]

theorem assignKeysFrom_map_key (n : Nat) (f : Nat → α → β) (l : List α)
    (key : β → Nat) (hk : ∀ i a, key (f i a) = i) :
    (assignKeysFrom n f l).map key = List.range' n l.length := by
  induction l generalizing n with
  | nil => rfl
  | cons a rest ih =>
    simp [assignKeysFrom, List.range'_succ, hk, ih]

theorem assignKeys_map_key (f : Nat → α → β) (l : List α)
    (key : β → Nat) (hk : ∀ i a, key (f i a) = i) :
    (assignKeys f l).map key = List.range' 1 l.length :=
  assignKeysFrom_map_key 1 f l key hk

theorem mem_assignKeysFrom (n : Nat) (f : Nat → α → β) (l : List α) (b : β)
    (hb : b ∈ assignKeysFrom n f l) : ∃ i a, a ∈ l ∧ b = f i a := by
  induction l generalizing n with
  | nil => simp [assignKeysFrom] at hb
  | cons a rest ih =>
    rcases List.mem_cons.mp hb with h | h
    · exact ⟨n, a, List.mem_cons_self a rest, h⟩
    · obtain ⟨i, a2, hmem, heq⟩ := ih _ h
      exact ⟨i, a2, List.mem_cons_of_mem _ hmem, heq⟩

theorem assignKeysFrom_filter_length (n : Nat) (f : Nat → α → β) (l : List α)
    (p : β → Bool) (q : α → Bool) (hpq : ∀ i a, p (f i a) = q a) :
    ((assignKeysFrom n f l).filter p).length = (l.filter q).length := by
  induction l generalizing n with
  | nil => rfl
  | cons a rest ih =>
    simp only [assignKeysFrom, List.filter_cons, hpq]
    by_cases hq : q a = true
    · simp [hq, ih]
    · simp only [Bool.not_eq_true] at hq
      simp [hq, ih]

theorem length_filter_le_one_of_nodup_map [DecidableEq β] (f : δ → β)
    (dim : List δ) (h : (dim.map f).Nodup) (k : β) :
    (dim.filter (fun d => f d == k)).length ≤ 1 := by
  induction dim with
  | nil => simp
  | cons d rest ih =>
    simp only [List.map_cons, List.nodup_cons] at h
    by_cases hd : f d = k
    · have hnil : rest.filter (fun d => f d == k) = [] := by
        refine List.filter_eq_nil_iff.mpr fun a ha => ?_
        have hne : f a ≠ f d := fun he => h.1 (he ▸ List.mem_map_of_mem f ha)
        simp [hd ▸ hne]
      simp [List.filter_cons, hd, hnil]
    · simpa [List.filter_cons, hd] using ih h.2

theorem joinOne_length (getKey : δ → Nat) (cond : FactWork → δ → Bool)
    (setKey : FactWork → Option Nat → FactWork) (dim : List δ) (rows : List FactWork)
    (h : ∀ r, (dim.filter (cond r)).length ≤ 1) :
    (joinOne getKey cond setKey dim rows).length = rows.length := by
  induction rows with
  | nil => rfl
  | cons r rest ih =>
    have hr := h r
    rw [joinOne, List.flatMap_cons, List.length_append]
    have hrest : (rest.flatMap (fun r =>
        let hits := dim.filter (cond r)
        if hits.isEmpty then [setKey r none]
        else hits.map (fun d => setKey r (some (getKey d))))).length = rest.length := ih
    rw [hrest]
    rcases hfil : dim.filter (cond r) with _ | ⟨d, ds⟩
    · simp [hfil]
      omega
    · rw [hfil] at hr
      have hds : ds = [] := List.length_eq_zero.mp (by simpa using hr)
      subst hds
      simp [hfil]
      omega

theorem joinOne_nil_dim (getKey : δ → Nat) (cond : FactWork → δ → Bool)
    (setKey : FactWork → Option Nat → FactWork) (rows : List FactWork) :
    joinOne getKey cond setKey [] rows = rows.map (fun r => setKey r none) := by
  induction rows with
  | nil => rfl
  | cons r rest ih =>
    rw [joinOne, List.flatMap_cons]
    have hrest : rest.flatMap (fun r =>
        let hits := ([] : List δ).filter (cond r)
        if hits.isEmpty then [setKey r none]
        else hits.map (fun d => setKey r (some (getKey d)))) = rest.map (fun r => setKey r none) := ih
    rw [hrest]
    simp

theorem assignKeysFrom_map_proj (n : Nat) (f : Nat → α → β) (l : List α)
    (proj : β → γ) (g : α → γ) (h : ∀ i a, proj (f i a) = g a) :
    (assignKeysFrom n f l).map proj = l.map g := by
  induction l generalizing n with
  | nil => rfl
  | cons a rest ih => simp [assignKeysFrom, h, ih]

theorem filter_eq_singleton_of_nodup [DecidableEq α] (l : List α) (q : α → Bool) (e : α)
    (hl : l.Nodup) (he : e ∈ l) (hqe : q e = true) (hall : ∀ x ∈ l, q x = true → x = e) :
    l.filter q = [e] := by
  induction l with
  | nil => cases he
  | cons a rest ih =>
    have hnd := List.nodup_cons.mp hl
    by_cases hqa : q a = true
    · have hae : a = e := hall a (List.mem_cons_self a rest) hqa
      subst hae
      have hrest : rest.filter q = [] := by
        refine List.filter_eq_nil_iff.mpr fun x hx hqx => ?_
        exact hnd.1 ((hall x (List.mem_cons_of_mem _ hx) hqx) ▸ hx)
      simp [List.filter_cons, hqa, hrest]
    · have hne : e ≠ a := fun hea => hqa (hea ▸ hqe)
      have hem : e ∈ rest := by
        rcases List.mem_cons.mp he with h | h
        · exact absurd h hne
        · exact h
      rw [List.filter_cons_of_neg (by simpa using hqa)]
      exact ih hnd.2 hem fun x hx hqx => hall x (List.mem_cons_of_mem _ hx) hqx

/-! ## Sample data for concrete counterexamples and witnesses -/

/-- A segment of a French feed: trip `t1` from stop `A` (“Paris”) to
stop `B` (“Lyon”). -/
def segParisLyon : SegmentRow :=
  ⟨"FRANCE".toList, "sncf".toList, some "t1".toList, some "r1".toList,
   some "A".toList, some "B".toList, some "10:00:00".toList, some "11:00:00".toList,
   "Paris".toList, "Lyon".toList, none, none, none, none, false,
   some "20240102".toList, false⟩

/-- The same endpoints reported by a second feed with a different
departure-station name. -/
def segParisLyon2 : SegmentRow :=
  { segParisLyon with
    trip_id := some "t2".toList
    departure_station := "Paris Nord".toList }

/-- A night-flagged segment (departure 23:50) of operator `x` appearing
in no night-train registry. -/
def segNightX : SegmentRow :=
  { segParisLyon with
    operator := "x".toList
    departure_time := some "23:50:00".toList
    is_night := true }

/-- A stops table carrying a `stop_country` column in which stop `A` is
French and stop `B` has a missing (NaN) country cell. -/
def stopsAB : StopsTable :=
  ⟨[⟨some "A".toList, some "FR".toList⟩, ⟨some "B".toList, none⟩], true⟩

/-! ## C1 — cross-border flag -/

/-- C1, counterexample: the claim says the flag is false whenever either
endpoint's country attribute is unknown or absent.  In `stopsAB` the
arrival stop `B` *is* matched but its `stop_country` cell is missing;
the code normalises the NaN cell to the string `"NAN"`, compares it with
`"FR"`, and returns `true`. -/
theorem c1_cross_border_counterexample :
    (stopsAB.rows.find? (fun r => pdCellEq r.stop_id (some "B".toList))).map
        (fun r => r.stop_country) = some none ∧
    crossBorderFlag stopsAB (some "A".toList) (some "B".toList) = true := by
  constructor
  · decide
  · decide

/-- C1 (amended): the extracted cross-border flag is true iff the feed's
stops table has a `stop_country` column, both endpoint stop ids match
some stop row, and the *normalised* country cells of the first matching
rows differ — where a missing country cell normalises to the literal
`"NAN"`, so an endpoint with an unknown country can still make the flag
true when the other endpoint's country differs from `"NAN"`. -/
theorem c1_cross_border_characterization (t : StopsTable) (dep arr : Option Str) :
    crossBorderFlag t dep arr = true ↔
      t.hasCountryCol = true ∧
      ∃ dRow aRow,
        t.rows.find? (fun r => pdCellEq r.stop_id dep) = some dRow ∧
        t.rows.find? (fun r => pdCellEq r.stop_id arr) = some aRow ∧
        normalizeCountryCell dRow.stop_country ≠ normalizeCountryCell aRow.stop_country := by
  rw [crossBorderFlag]
  by_cases hc : t.hasCountryCol = true
  · rw [if_pos hc, isCrossBorderByStops]
    by_cases hemp : t.rows.isEmpty
    · have hnil : t.rows = [] := by simpa using hemp
      simp [hemp, hnil]
    · rcases hfd : t.rows.find? (fun r => pdCellEq r.stop_id dep) with _ | dRow
        <;> rcases hfa : t.rows.find? (fun r => pdCellEq r.stop_id arr) with _ | aRow
        <;> simp [hemp, hc, hfd, hfa, bne_iff_ne]
  · simp [hc]

/-! ## C2 — `is_night_operator` -/

theorem nightAny_of_opSrc (night : List NightRow) (m : List (Str × Str)) (id : Str) :
    ((((night.map (opSrcFromNight m)).filter (fun r => r.operator_id.isSome)).filter
        (fun r => r.operator_id == some id)).any (fun r => r.is_night_operator))
      = night.any (fun n => n.operator_id == some id) := by
  induction night with
  | nil => rfl
  | cons n rest ih =>
    rcases hop : n.operator_id with _ | v
    · simpa [opSrcFromNight, List.filter_cons, hop] using ih
    · by_cases hv : v = id
      · subst hv
        simp [opSrcFromNight, List.filter_cons, hop]
      · have hvb : (v == id) = false := beq_eq_false_iff_ne.mpr hv
        have hvb2 : ((some v : Option Str) == some id) = false := hvb
        simpa [opSrcFromNight, List.filter_cons, hop, hvb, hvb2] using ih

theorem segAny_false (segs : List SegmentRow) (m : List (Str × Str)) (id : Str) :
    ((((segs.map (opSrcFromSeg m)).filter (fun r => r.operator_id.isSome)).filter
        (fun r => r.operator_id == some id)).any (fun r => r.is_night_operator)) = false := by
  rw [List.any_eq_false]
  intro x hx
  have hx2 : x ∈ segs.map (opSrcFromSeg m) :=
    List.mem_of_mem_filter (List.mem_of_mem_filter hx)
  obtain ⟨s, hs, rfl⟩ := List.mem_map.mp hx2
  simp [opSrcFromSeg]

/-- C2, counterexample: the claim says an operator whose feed
trip-segment rows are night-flagged gets `is_night_operator = true` even
without a night-registry entry.  Operator `x` has a night-flagged
segment (`is_night = true`), the registry is empty, and the built
dimension row still carries `is_night_operator = false`. -/
theorem c2_night_operator_counterexample :
    segNightX.is_night = true ∧
    (buildDimOperator [segNightX] [] []).map
        (fun r => (r.operator_id, r.is_night_operator)) = [("x".toList, false)] := by
  constructor
  · rfl
  · decide

/-- C2 (amended): `dim_operator` has exactly one row per distinct
non-null operator id, and its `is_night_operator` flag is true iff the
operator id appears in the night-train registry — the segments' own
night flags never contribute (segment-derived operator rows are always
created with `is_night_operator = False`). -/
theorem c2_night_operator_registry_only (segs : List SegmentRow) (night : List NightRow)
    (m : List (Str × Str)) :
    ((buildDimOperator segs night m).map (fun r => r.operator_id)).Nodup ∧
    ∀ r ∈ buildDimOperator segs night m,
      r.is_night_operator = night.any (fun n => n.operator_id == some r.operator_id) := by
  constructor
  · rw [buildDimOperator]
    rw [assignKeys, assignKeysFrom_map_proj _ _ _ _ (fun id => id)
      (fun i id => rfl)]
    simpa using nodup_dedupKeepFirst _
  · intro r hr
    rw [buildDimOperator, assignKeys] at hr
    obtain ⟨i, id, hmem, heq⟩ := mem_assignKeysFrom _ _ _ _ hr
    subst heq
    show (aggOperatorGroup i id _).is_night_operator
      = night.any (fun n => n.operator_id == some (aggOperatorGroup i id _).operator_id)
    have hid : (aggOperatorGroup i id
        (((segs.map (opSrcFromSeg m) ++ night.map (opSrcFromNight m)).filter
          (fun r => r.operator_id.isSome)).filter
            (fun r => r.operator_id == some id))).operator_id = id := rfl
    rw [hid]
    show (((segs.map (opSrcFromSeg m) ++ night.map (opSrcFromNight m)).filter
        (fun r => r.operator_id.isSome)).filter
          (fun r => r.operator_id == some id)).any (fun r => r.is_night_operator)
      = night.any (fun n => n.operator_id == some id)
    rw [List.filter_append, List.filter_append, List.any_append]
    rw [segAny_false segs m id, nightAny_of_opSrc night m id]
    rw [Bool.false_or]

/-! ## C3 — surrogate keys -/

/-- C3, counterexample: the claim says *every* dimension's surrogate key
column is the contiguous sequence `1..N`.  A single segment dated
`2024‑01‑02` produces a one-row `dim_date` whose key column is
`[20240102]`, not `[1]`. -/
theorem c3_dim_date_key_counterexample :
    (buildDimDate [segParisLyon]).map (fun r => r.date_key)
      ≠ List.range' 1 (buildDimDate [segParisLyon]).length := by
  decide

/-- C3 (amended): the five dimensions built with `reset_index` +
`index + 1` — country, operator, station, route, time — carry surrogate
keys forming exactly the contiguous sequence `1..N` where `N` is the
table's (deduplicated) row count; `dim_date` instead keys each row by
the meaningful integer `year·10000 + month·100 + day`. -/
theorem c3_surrogate_keys_dense_except_date (geo : List GeoRow)
    (segs : List SegmentRow) (night : List NightRow) (m : List (Str × Str)) :
    ((buildDimCountry geo).map (fun r => r.country_key)
        = List.range' 1 (buildDimCountry geo).length) ∧
    ((buildDimOperator segs night m).map (fun r => r.operator_key)
        = List.range' 1 (buildDimOperator segs night m).length) ∧
    ((buildDimStation segs m).map (fun r => r.station_key)
        = List.range' 1 (buildDimStation segs m).length) ∧
    ((buildDimRoute segs m).map (fun r => r.route_key)
        = List.range' 1 (buildDimRoute segs m).length) ∧
    ((buildDimTime segs).map (fun r => r.time_key)
        = List.range' 1 (buildDimTime segs).length) ∧
    (∀ r ∈ buildDimDate segs, r.date_key = r.year * 10000 + r.month * 100 + r.day) := by
  refine ⟨?_, ?_, ?_, ?_, ?_, ?_⟩
  · rw [buildDimCountry]
    by_cases hg : geo.isEmpty
    · simp [hg]
    · rw [if_neg hg, assignKeys, assignKeysFrom_map_key _ _ _ _ (fun i a => rfl),
        assignKeysFrom_length]
  · rw [buildDimOperator, assignKeys,
      assignKeysFrom_map_key _ _ _ _ (fun i a => rfl), assignKeysFrom_length]
  · rw [buildDimStation, assignKeys,
      assignKeysFrom_map_key _ _ _ _ (fun i a => rfl), assignKeysFrom_length]
  · rw [buildDimRoute, assignKeys,
      assignKeysFrom_map_key _ _ _ _ (fun i a => rfl), assignKeysFrom_length]
  · rw [buildDimTime, assignKeys,
      assignKeysFrom_map_key _ _ _ _ (fun i a => rfl), assignKeysFrom_length]
  · intro r hr
    rw [buildDimDate] at hr
    obtain ⟨d, hd, rfl⟩ := List.mem_map.mp hr
    rfl

/-! ## C4 — `dim_station` deduplication -/

/-- C4, counterexample: two segments share the endpoint pair
`(stop A, country FRANCE)` but one feed names the departure station
“Paris” and the other “Paris Nord”.  Deduplication runs over the *whole*
attribute row, so `dim_station` ends up with **two** rows for the pair
`(A, FRANCE)` — the claim's “exactly one row per (stop id, country
code) pair” fails. -/
theorem c4_station_pair_counterexample :
    ((buildDimStation [segParisLyon, segParisLyon2] []).filter
        (fun r => r.stop_id == "A".toList && r.country_code == "FRANCE".toList)).length
      = 2 := by
  decide

/-- C4 (amended): `dim_station` is deduplicated by the whole attribute
tuple (stop id, name, lat, lon, raw feed country) — *not* by
`(stop id, country code)` — and the country mapping is applied only
afterwards.  Consequently the table holds exactly one row for a pair
`(sid, cc)` whenever all endpoint occurrences of stop id `sid` agree on
every attribute (and at least one maps to country `cc`); endpoint rows
differing in any attribute produce additional rows for the same pair. -/
theorem c4_station_pair_unique_of_consistent (segs : List SegmentRow)
    (m : List (Str × Str)) (sid cc : Str)
    (h1 : ∃ e ∈ stationSourceRows segs,
      e.stop_id = some sid ∧ mapCountry m e.country_code = cc)
    (h2 : ∀ e1 ∈ stationSourceRows segs, ∀ e2 ∈ stationSourceRows segs,
      e1.stop_id = some sid → e2.stop_id = some sid → e1 = e2) :
    ((buildDimStation segs m).filter
        (fun r => r.stop_id == sid && r.country_code == cc)).length = 1 := by
  obtain ⟨e, hesrc, hesid, hecc⟩ := h1
  rw [buildDimStation, assignKeys]
  rw [assignKeysFrom_filter_length _ _ _ _
    (fun a => a.stop_id.getD [] == sid && mapCountry m a.country_code == cc)
    (fun i a => rfl)]
  have hmm : e ∈ dedupKeepFirst
      ((stationSourceRows segs).filter (fun r => r.stop_id.isSome)) := by
    rw [mem_dedupKeepFirst, List.mem_filter]
    exact ⟨hesrc, by simp [hesid]⟩
  rw [filter_eq_singleton_of_nodup _ _ e (nodup_dedupKeepFirst _) hmm]
  · rfl
  · simp [hesid, hecc]
  · intro x hx hqx
    have hxsrc : x ∈ (stationSourceRows segs).filter (fun r => r.stop_id.isSome) :=
      (mem_dedupKeepFirst _ _).mp hx
    have hxmem : x ∈ stationSourceRows segs := List.mem_of_mem_filter hxsrc
    have hxsome : x.stop_id.isSome = true := (List.mem_filter.mp hxsrc).2
    have hxsid : x.stop_id = some sid := by
      rcases hox : x.stop_id with _ | v
      · rw [hox] at hxsome; cases hxsome
      · have hv : v = sid := by
          have hand := (Bool.and_eq_true _ _).mp hqx
          simpa [hox] using hand.1
        simp [hox, hv]
    exact h2 x hxmem e hesrc hxsid hesid

/-- C4, witness for the amended theorem: with the single segment
`segParisLyon`, stop `A` occurs exactly once among the endpoint rows, so
the pair `(A, FRANCE)` has exactly one `dim_station` row. -/
theorem c4_station_pair_unique_witness :
    ((buildDimStation [segParisLyon] []).filter
        (fun r => r.stop_id == "A".toList && r.country_code == "FRANCE".toList)).length = 1 :=
  c4_station_pair_unique_of_consistent [segParisLyon] [] "A".toList "FRANCE".toList
    (by decide) (by decide)

/-! ## C6 — all-or-nothing warehouse load -/

/-- A non-trivial pre-run warehouse used in witnesses. -/
def wsPre : Warehouse :=
  ⟨[⟨1, "FR".toList, none, none, none, none, none, none⟩],
   [⟨1, "sncf".toList, none, none, true⟩], [], [], [], [], [],
   ["old".toList]⟩

/-- C6: if any of the ten statements of the load transaction (schema
execution, truncate, eight bulk copies) fails, the transaction aborts
and the reader still sees the pre-run contents of all seven star-schema
tables (and of the itinerary table). -/
theorem c6_load_failure_preserves_warehouse (ws tables : Warehouse) (k : Nat)
    (hk : k < loadStatementCount) :
    (loadWarehouse ws tables (some k)).dim_country = ws.dim_country ∧
    (loadWarehouse ws tables (some k)).dim_operator = ws.dim_operator ∧
    (loadWarehouse ws tables (some k)).dim_station = ws.dim_station ∧
    (loadWarehouse ws tables (some k)).dim_route = ws.dim_route ∧
    (loadWarehouse ws tables (some k)).dim_time = ws.dim_time ∧
    (loadWarehouse ws tables (some k)).dim_date = ws.dim_date ∧
    (loadWarehouse ws tables (some k)).fact_trip_segment = ws.fact_trip_segment ∧
    (loadWarehouse ws tables (some k)).trip_stop = ws.trip_stop := by
  have hload : loadWarehouse ws tables (some k) = ws := by
    rw [loadWarehouse]
    exact if_pos (by simpa [loadStatementCount] using hk)
  rw [hload]
  exact ⟨rfl, rfl, rfl, rfl, rfl, rfl, rfl, rfl⟩

/-- C6, witness: a failure at the truncate statement (index 1) leaves
the concrete pre-run warehouse `wsPre` fully intact even though the run
wanted to replace it with an empty warehouse. -/
theorem c6_load_failure_witness :
    1 < loadStatementCount ∧
    (loadWarehouse wsPre ⟨[], [], [], [], [], [], [], []⟩ (some 1)).dim_country
      = wsPre.dim_country ∧
    (loadWarehouse wsPre ⟨[], [], [], [], [], [], [], []⟩ (some 1)).fact_trip_segment
      = wsPre.fact_trip_segment :=
  ⟨by decide,
   (c6_load_failure_preserves_warehouse wsPre ⟨[], [], [], [], [], [], [], []⟩ 1
     (by decide)).1,
   (c6_load_failure_preserves_warehouse wsPre ⟨[], [], [], [], [], [], [], []⟩ 1
     (by decide)).2.2.2.2.2.2.1⟩

/-! ## C10 — empty extraction returns early -/

/-- C10: if every resolved source's extraction yields no trip-segment
rows, the pipeline returns before opening a database connection: the
returned flag is `false` (no connection) and the warehouse — all seven
star tables and the itinerary table — is the untouched pre-run state,
whatever the registries contain and whatever failure would have hit the
load. -/
theorem c10_no_segments_returns_early (extracted : List (List SegmentRow))
    (rawNight : List RawNightRow) (geo : List GeoRow) (ws : Warehouse)
    (failAt : Option Nat) (h : ∀ d ∈ extracted, d = []) :
    runStreamEtl extracted rawNight geo ws failAt = (ws, false) := by
  rw [runStreamEtl]
  have hfil : extracted.filter (fun d => !d.isEmpty) = [] := by
    refine List.filter_eq_nil_iff.mpr fun d hd => ?_
    simp [h d hd]
  rw [hfil]
  rfl

/-- C10, witness: two sources that both extract to empty frames leave
the concrete warehouse `wsPre` unchanged and open no connection, even
with a non-empty night registry and geography registry available. -/
theorem c10_no_segments_witness :
    runStreamEtl [[], []] [⟨some "ngx".toList, none, none, none⟩]
      [⟨some "FR".toList, none, none, none, none, none, none⟩] wsPre (some 0)
      = (wsPre, false) :=
  c10_no_segments_returns_early [[], []] [⟨some "ngx".toList, none, none, none⟩]
    [⟨some "FR".toList, none, none, none, none, none, none⟩] wsPre (some 0)
    (by decide)

/-! ## C7 — night classification -/

/-- C7: (a) whenever the hour field of a time value parses to a valid
hour `0 ≤ h < 24`, `_is_night_time` returns exactly `h ≥ 20 ∨ h < 6`;
(b) an absent value classifies as day; (c) a value that is blank after
stripping classifies as day; (d) a value whose hour field does not parse
classifies as day; (e) every `dim_time` row's `is_night` equals the same
`hour ≥ 20 ∨ hour < 6` rule on its hour column. -/
theorem c7_night_classification :
    (∀ (s : Str) (h : Int), nightHour s = some h → 0 ≤ h → h < 24 →
      isNightTime (some s) = (decide (20 ≤ h) || decide (h < 6))) ∧
    (isNightTime none = false) ∧
    (∀ s : Str, stripChars s = [] → isNightTime (some s) = false) ∧
    (∀ s : Str, nightHour s = none → isNightTime (some s) = false) ∧
    (∀ (segs : List SegmentRow) (r : TimeRow), r ∈ buildDimTime segs →
      r.is_night = (decide (20 ≤ r.hour) || decide (r.hour < 6))) := by
  refine ⟨?_, rfl, ?_, ?_, ?_⟩
  · intro s h hparse h0 h24
    rw [isNightTime]
    have hs : s.isEmpty = false := by
      rcases s with _ | ⟨c, rest⟩
      · rw [show nightHour [] = none from rfl] at hparse; cases hparse
      · rfl
    rw [if_neg (by simp [hs])]
    have htext : ((lowerStr (stripChars s)).isEmpty
        || lowerStr (stripChars s) = ['n', 'a', 'n']) = false := by
      rcases hlt : lowerStr (stripChars s) with _ | ⟨c, rest⟩
      · exfalso
        rw [nightHour, hlt] at hparse
        cases hparse
      · by_cases hnan : (c :: rest : Str) = ['n', 'a', 'n']
        · exfalso
          rw [nightHour, hlt, hnan] at hparse
          rw [show pyInt ((splitOnColon ['n', 'a', 'n']).getD 0 []) = none from rfl]
            at hparse
          cases hparse
        · simp [hnan]
    rw [if_neg (by simpa using htext)]
    rw [hparse]
    show (decide (20 ≤ h % 24) || decide (h % 24 < 6))
      = (decide (20 ≤ h) || decide (h < 6))
    rw [Int.emod_eq_of_lt h0 h24]
  · intro s hstrip
    rw [isNightTime]
    rcases hs : s with _ | ⟨c, rest⟩
    · rfl
    · rw [if_neg (by simp)]
      rw [if_pos]
      rw [← hs, hstrip]
      simp [lowerStr]
  · intro s hparse
    rw [isNightTime]
    rcases hs : s with _ | ⟨c, rest⟩
    · rfl
    · rw [if_neg (by simp)]
      by_cases htext : ((lowerStr (stripChars (c :: rest))).isEmpty
          || lowerStr (stripChars (c :: rest)) = ['n', 'a', 'n']) = true
      · rw [if_pos (by simpa using htext)]
      · rw [if_neg (by simpa using htext)]
        rw [← hs, hparse]
  · intro segs r hr
    rw [buildDimTime, assignKeys] at hr
    obtain ⟨i, p, hp, rfl⟩ := mem_assignKeysFrom _ _ _ _ hr
    rfl

/-- C7, witness: concrete classifications obtained through the theorem —
`"23:50:00"` (hour 23) is night, `"07:15:00"` (hour 7) is day, an absent
value is day, and the unparsable `"xx:30"` is day. -/
theorem c7_night_classification_witness :
    isNightTime (some "23:50:00".toList) = true ∧
    isNightTime (some "07:15:00".toList) = false ∧
    isNightTime none = false ∧
    isNightTime (some "xx:30".toList) = false := by
  refine ⟨?_, ?_, ?_, ?_⟩
  · have h := c7_night_classification.1 "23:50:00".toList 23 (by decide) (by decide) (by decide)
    simpa using h
  · have h := c7_night_classification.1 "07:15:00".toList 7 (by decide) (by decide) (by decide)
    simpa using h
  · exact c7_night_classification.2.1
  · exact c7_night_classification.2.2.2.1 "xx:30".toList (by decide)

/-! ## C5 — fact assembly -/

theorem length_filter_le_one_of_key [DecidableEq β] (f : δ → β) (dim : List δ)
    (h : (dim.map f).Nodup) (cond : δ → Bool) (k : β)
    (hcond : ∀ d, cond d = true ↔ f d = k) :
    (dim.filter cond).length ≤ 1 := by
  induction dim with
  | nil => simp
  | cons d rest ih =>
    simp only [List.map_cons, List.nodup_cons] at h
    by_cases hd : cond d = true
    · have hfd : f d = k := (hcond d).mp hd
      have hnil : rest.filter cond = [] := by
        refine List.filter_eq_nil_iff.mpr fun a ha hqa => ?_
        have : f a = f d := ((hcond a).mp hqa).trans hfd.symm
        exact h.1 (this ▸ List.mem_map_of_mem f ha)
      simp [List.filter_cons, hd, hnil]
    · rw [List.filter_cons_of_neg (by simpa using hd)]
      exact ih h.2

theorem nodup_map_comp {f : δ → β} {g : β → γ} (hg : Function.Injective g)
    (l : List δ) (h : (l.map f).Nodup) : (l.map (fun d => g (f d))).Nodup := by
  have h2 := h.map hg
  rw [List.map_map] at h2
  exact h2

/-- C5 (amended): (a) each dimension key is resolved by an equality left
join on its natural key, and when every dimension's natural-key column
is duplicate-free, fact assembly produces *exactly one* fact row per
normalised trip segment; (b) joins against empty dimensions keep every
segment as one fact row whose eight foreign keys are all null — a lookup
miss never drops a row.  (Without the duplicate-free condition a
multiply-matched dimension row multiplies the fact row — see the
counterexample.) -/
theorem c5_fact_assembly_left_joins :
    (∀ (segs : List SegmentRow) (dimC : List CountryRow) (dimO : List OperatorRow)
        (dimS : List StationRow) (dimR : List RouteRow) (dimT : List TimeRow)
        (dimD : List DateRow) (m : List (Str × Str)),
      (dimC.map (fun d => d.country_code)).Nodup →
      (dimO.map (fun d => d.operator_id)).Nodup →
      (dimS.map (fun d => (d.stop_id, d.country_code))).Nodup →
      (dimR.map (fun d => (d.route_id, d.operator_id, d.country_code))).Nodup →
      (dimT.map (fun d => d.time_value)).Nodup →
      (dimD.map (fun d => d.date_value)).Nodup →
      (buildFactSegments segs dimC dimO dimS dimR dimT dimD m).length = segs.length) ∧
    (∀ (segs : List SegmentRow) (m : List (Str × Str)),
      (buildFactSegments segs [] [] [] [] [] [] m).length = segs.length ∧
      ∀ r ∈ buildFactSegments segs [] [] [] [] [] [] m,
        r.country_key = none ∧ r.operator_key = none ∧ r.route_key = none ∧
        r.departure_station_key = none ∧ r.arrival_station_key = none ∧
        r.departure_time_key = none ∧ r.arrival_time_key = none ∧ r.date_key = none) := by
  constructor
  · intro segs dimC dimO dimS dimR dimT dimD m hC hO hS hR hT hD
    have hSs : (dimS.map (fun d => ((some d.stop_id : Option Str), d.country_code))).Nodup := by
      refine nodup_map_comp (g := fun t : Str × Str => ((some t.1 : Option Str), t.2)) ?_ dimS hS
      intro a b hab
      rcases a with ⟨a1, a2⟩; rcases b with ⟨b1, b2⟩
      simpa [Prod.ext_iff] using hab
    have hRs : (dimR.map (fun d =>
        ((some d.route_id : Option Str), d.operator_id, d.country_code))).Nodup := by
      refine nodup_map_comp
        (g := fun t : Str × Str × Str => ((some t.1 : Option Str), t.2.1, t.2.2)) ?_ dimR hR
      intro a b hab
      rcases a with ⟨a1, a2, a3⟩; rcases b with ⟨b1, b2, b3⟩
      simpa [Prod.ext_iff] using hab
    have hDs : (dimD.map (fun d => (some d.date_value : Option PDate))).Nodup :=
      nodup_map_comp (Option.some_injective PDate) dimD hD
    have eC : ∀ rows : List FactWork,
        (joinOne (fun d => d.country_key) (fun w d => d.country_code == w.country_code)
          (fun w k => { w with country_key := k }) dimC rows).length = rows.length :=
      fun rows => joinOne_length _ _ _ dimC rows (fun r =>
        length_filter_le_one_of_key (fun d => d.country_code) dimC hC _
          r.country_code (fun d => by simp))
    have eO : ∀ rows : List FactWork,
        (joinOne (fun d => d.operator_key) (fun w d => d.operator_id == w.seg.operator)
          (fun w k => { w with operator_key := k }) dimO rows).length = rows.length :=
      fun rows => joinOne_length _ _ _ dimO rows (fun r =>
        length_filter_le_one_of_key (fun d => d.operator_id) dimO hO _
          r.seg.operator (fun d => by simp))
    have eR : ∀ rows : List FactWork,
        (joinOne (fun d => d.route_key)
          (fun w d => some d.route_id == w.seg.route_id && d.operator_id == w.seg.operator
            && d.country_code == w.country_code)
          (fun w k => { w with route_key := k }) dimR rows).length = rows.length :=
      fun rows => joinOne_length _ _ _ dimR rows (fun r =>
        length_filter_le_one_of_key
          (fun d => ((some d.route_id : Option Str), d.operator_id, d.country_code)) dimR hRs _
          (r.seg.route_id, r.seg.operator, r.country_code)
          (fun d => by simp [Bool.and_eq_true, and_assoc]))
    have eSd : ∀ rows : List FactWork,
        (joinOne (fun d => d.station_key)
          (fun w d => some d.stop_id == w.seg.departure_stop_id
            && d.country_code == w.country_code)
          (fun w k => { w with departure_station_key := k }) dimS rows).length = rows.length :=
      fun rows => joinOne_length _ _ _ dimS rows (fun r =>
        length_filter_le_one_of_key
          (fun d => ((some d.stop_id : Option Str), d.country_code)) dimS hSs _
          (r.seg.departure_stop_id, r.country_code)
          (fun d => by simp [Bool.and_eq_true]))
    have eSa : ∀ rows : List FactWork,
        (joinOne (fun d => d.station_key)
          (fun w d => some d.stop_id == w.seg.arrival_stop_id
            && d.country_code == w.country_code)
          (fun w k => { w with arrival_station_key := k }) dimS rows).length = rows.length :=
      fun rows => joinOne_length _ _ _ dimS rows (fun r =>
        length_filter_le_one_of_key
          (fun d => ((some d.stop_id : Option Str), d.country_code)) dimS hSs _
          (r.seg.arrival_stop_id, r.country_code)
          (fun d => by simp [Bool.and_eq_true]))
    have eTd : ∀ rows : List FactWork,
        (joinOne (fun d => d.time_key)
          (fun w d => d.time_value == factTimeStr w.seg.departure_time)
          (fun w k => { w with departure_time_key := k }) dimT rows).length = rows.length :=
      fun rows => joinOne_length _ _ _ dimT rows (fun r =>
        length_filter_le_one_of_key (fun d => d.time_value) dimT hT _
          (factTimeStr r.seg.departure_time) (fun d => by simp))
    have eTa : ∀ rows : List FactWork,
        (joinOne (fun d => d.time_key)
          (fun w d => d.time_value == factTimeStr w.seg.arrival_time)
          (fun w k => { w with arrival_time_key := k }) dimT rows).length = rows.length :=
      fun rows => joinOne_length _ _ _ dimT rows (fun r =>
        length_filter_le_one_of_key (fun d => d.time_value) dimT hT _
          (factTimeStr r.seg.arrival_time) (fun d => by simp))
    have eD : ∀ rows : List FactWork,
        (joinOne (fun d => d.date_key) (fun w d => some d.date_value == factDateValue w.seg)
          (fun w k => { w with date_key := k }) dimD rows).length = rows.length :=
      fun rows => joinOne_length _ _ _ dimD rows (fun r =>
        length_filter_le_one_of_key (fun d => (some d.date_value : Option PDate)) dimD hDs _
          (factDateValue r.seg) (fun d => by simp))
    simp only [buildFactSegments]
    rw [assignKeys, assignKeysFrom_length, eD, eTa, eTd, eSa, eSd, eR, eO, eC]
    rw [List.length_map]
  · intro segs m
    constructor
    · simp only [buildFactSegments, joinOne_nil_dim, List.map_map]
      rw [assignKeys, assignKeysFrom_length, List.length_map]
    · intro r hr
      simp only [buildFactSegments, joinOne_nil_dim, List.map_map, assignKeys] at hr
      obtain ⟨i, w, hw, rfl⟩ := mem_assignKeysFrom _ _ _ _ hr
      obtain ⟨s, hs, rfl⟩ := List.mem_map.mp hw
      exact ⟨rfl, rfl, rfl, rfl, rfl, rfl, rfl, rfl⟩

/-- C5, counterexample: with the two segments of the C4 counterexample,
`dim_station` holds two rows for `(A, FRANCE)`; the departure-station
left join matches both, so the two normalised segments produce **four**
fact rows — the claim's “exactly one fact row per segment” fails. -/
theorem c5_fact_multiplication_counterexample :
    [segParisLyon, segParisLyon2].length = 2 ∧
    (buildFactSegments [segParisLyon, segParisLyon2] []
        (buildDimOperator [segParisLyon, segParisLyon2] [] [])
        (buildDimStation [segParisLyon, segParisLyon2] [])
        (buildDimRoute [segParisLyon, segParisLyon2] [])
        (buildDimTime [segParisLyon, segParisLyon2])
        (buildDimDate [segParisLyon, segParisLyon2]) []).length = 4 := by
  constructor
  · rfl
  · decide

/-- C5, witness for the amended theorem: with one segment and the
dimensions actually built from it (whose natural keys are duplicate-free
here), fact assembly yields exactly one fact row. -/
theorem c5_fact_assembly_witness :
    (buildFactSegments [segParisLyon] []
        (buildDimOperator [segParisLyon] [] [])
        (buildDimStation [segParisLyon] [])
        (buildDimRoute [segParisLyon] [])
        (buildDimTime [segParisLyon])
        (buildDimDate [segParisLyon]) []).length = [segParisLyon].length :=
  c5_fact_assembly_left_joins.1 [segParisLyon] []
    (buildDimOperator [segParisLyon] [] []) (buildDimStation [segParisLyon] [])
    (buildDimRoute [segParisLyon] []) (buildDimTime [segParisLyon])
    (buildDimDate [segParisLyon]) []
    (by decide) (by decide) (by decide) (by decide) (by decide) (by decide)

/-! ## C8 — derived service date -/

theorem lookup_keyed_filterMap (keys : List Str) (g : Str → Option Str)
    (hnd : keys.Nodup) (k : Str) :
    lookupStr k (keys.filterMap (fun k2 => (g k2).map (fun v => (k2, v))))
      = if k ∈ keys then g k else none := by
  induction keys with
  | nil => rfl
  | cons k0 rest ih =>
    have hnd2 := List.nodup_cons.mp hnd
    rw [List.filterMap_cons]
    rcases hg0 : g k0 with _ | v
    · simp only [hg0, Option.map_none']
      rw [ih hnd2.2]
      by_cases hk : k = k0
      · subst hk
        rw [if_neg hnd2.1, if_pos (List.mem_cons_self _ _), hg0]
      · simp [List.mem_cons, hk]
    · simp only [hg0, Option.map_some']
      by_cases hk : k0 = k
      · subst hk
        rw [lookupStr, if_pos rfl, if_pos (List.mem_cons_self _ _), hg0]
      · rw [lookupStr, if_neg hk, ih hnd2.2]
        by_cases hmem : k ∈ rest
        · rw [if_pos hmem, if_pos (List.mem_cons_of_mem _ hmem)]
        · rw [if_neg hmem]
          rw [if_neg (fun hc => by
            rcases List.mem_cons.mp hc with h | h
            · exact hk h.symm
            · exact hmem h)]

theorem lookup_groupMinBy (l : List (Option Str × Option Str)) (k : Str) :
    lookupStr k (groupMinBy l)
      = listMinStr ((l.filter (fun r => r.1 == some k)).filterMap Prod.snd) := by
  rw [groupMinBy, lookup_keyed_filterMap _ _ (nodup_dedupKeepFirst _) k]
  by_cases hk : k ∈ dedupKeepFirst (l.filterMap Prod.fst)
  · rw [if_pos hk]
  · rw [if_neg hk]
    have hfil : l.filter (fun r => r.1 == some k) = [] := by
      refine List.filter_eq_nil_iff.mpr fun p hp hq => ?_
      apply hk
      rw [mem_dedupKeepFirst]
      exact List.mem_filterMap.mpr ⟨p, hp, by simpa using hq⟩
    rw [hfil]
    rfl

theorem lookup_append (k : Str) (m1 m2 : List (Str × Str)) :
    lookupStr k (m1 ++ m2) = optOr (lookupStr k m1) (lookupStr k m2) := by
  induction m1 with
  | nil => rfl
  | cons p rest ih =>
    rw [List.cons_append, lookupStr, lookupStr]
    by_cases hp : p.1 = k
    · rw [if_pos hp, if_pos hp]; rfl
    · rw [if_neg hp, if_neg hp, ih]

theorem lookup_filter_of_keep (k : Str) (m : List (Str × Str)) (q : Str × Str → Bool)
    (hq : ∀ p ∈ m, p.1 = k → q p = true) :
    lookupStr k (m.filter q) = lookupStr k m := by
  induction m with
  | nil => rfl
  | cons p rest ih =>
    by_cases hp : p.1 = k
    · rw [List.filter_cons_of_pos (hq p (List.mem_cons_self _ _) hp),
        lookupStr, lookupStr, if_pos hp, if_pos hp]
    · have ihr := ih fun x hx => hq x (List.mem_cons_of_mem _ hx)
      by_cases hqp : q p = true
      · rw [List.filter_cons_of_pos hqp, lookupStr, lookupStr, if_neg hp, if_neg hp, ihr]
      · rw [List.filter_cons_of_neg (by simpa using hqp), lookupStr, if_neg hp, ihr]

theorem optOr_none (b : Option α) : optOr none b = b := rfl

theorem optOr_some (a : α) (b : Option α) : optOr (some a) b = some a := rfl

theorem c8_lookup_added (cd : List CalendarDateRow) (hasExcCol : Bool) (sid : Str) :
    lookupStr sid
      (if !cd.isEmpty && hasExcCol then
        if (cd.filter (fun r => cellStr r.exception_type == ['1'])).isEmpty then []
        else groupMinBy ((cd.filter (fun r => cellStr r.exception_type == ['1'])).map
          (fun r => (r.service_id, r.date)))
      else [])
      = listMinStr ((if hasExcCol then
          cd.filter (fun r => cellStr r.exception_type == ['1'] && r.service_id == some sid)
        else []).filterMap (fun r => r.date)) := by
  by_cases hcol : hasExcCol
  · by_cases hcd : cd.isEmpty
    · have hnil : cd = [] := by simpa using hcd
      subst hnil
      simp [lookupStr, listMinStr]
    · rw [if_pos (by simp [hcd, hcol]), if_pos hcol]
      by_cases hadd : (cd.filter (fun r => cellStr r.exception_type == ['1'])).isEmpty
      · rw [if_pos hadd]
        have hnil : cd.filter (fun r => cellStr r.exception_type == ['1']) = [] := by
          simpa using hadd
        have hnil2 : cd.filter
            (fun r => cellStr r.exception_type == ['1'] && r.service_id == some sid) = [] := by
          refine List.filter_eq_nil_iff.mpr fun a ha hq => ?_
          exact List.filter_eq_nil_iff.mp hnil a ha ((Bool.and_eq_true _ _).mp hq).1
        rw [hnil2]
        rfl
      · rw [if_neg hadd, lookup_groupMinBy, List.filter_map, List.filterMap_map,
          List.filter_filter]
        have hfun : (fun (a : CalendarDateRow) =>
            ((fun r : Option Str × Option Str => r.1 == some sid) ∘
              (fun r : CalendarDateRow => (r.service_id, r.date))) a
              && cellStr a.exception_type == ['1'])
            = (fun a : CalendarDateRow =>
              cellStr a.exception_type == ['1'] && a.service_id == some sid) :=
          funext fun a => Bool.and_comm _ _
        rw [hfun]
        rfl
  · have hc : (!cd.isEmpty && hasExcCol) = false := by simp [hcol]
    rw [if_neg (by simp [hc]), if_neg hcol]
    rfl

theorem c8_lookup_calendar (cal : List CalendarRow) (sid : Str) :
    lookupStr sid
      (if !cal.isEmpty then groupMinBy (cal.map (fun r => (r.service_id, r.start_date)))
       else [])
      = listMinStr ((cal.filter (fun r => r.service_id == some sid)).filterMap
          (fun r => r.start_date)) := by
  by_cases hcal : cal.isEmpty
  · have hnil : cal = [] := by simpa using hcal
    subst hnil
    rfl
  · rw [if_pos (by simp [hcal]), lookup_groupMinBy, List.filter_map, List.filterMap_map]
    rfl

/-- C8: the service-date map built by `_build_service_date_map` realises
exactly the specified derivation — for every service id, the mapped
value is the minimum (string) date among that service's
`exception_type = "1"` (addition) calendar-exception rows when any
non-null such date exists, otherwise the minimum `start_date` from the
calendar table, otherwise absent (the trip's `service_date` is then
NaN/blank).  `specServiceDate` is the specification-side definition. -/
theorem c8_service_date_refinement (cal : List CalendarRow) (cd : List CalendarDateRow)
    (hasExcCol : Bool) (sid : Str) :
    lookupStr sid (buildServiceDateMap cal cd hasExcCol)
      = specServiceDate cal cd hasExcCol sid := by
  simp only [buildServiceDateMap, specServiceDate]
  rw [lookup_append, c8_lookup_added]
  rcases hval : listMinStr ((if hasExcCol then
      cd.filter (fun r => cellStr r.exception_type == ['1'] && r.service_id == some sid)
    else []).filterMap (fun r => r.date)) with _ | v
  · rw [hval, optOr_none, optOr_none]
    rw [lookup_filter_of_keep _ _ _ (fun p hp hpk => by
      rw [hpk, c8_lookup_added, hval]
      rfl)]
    exact c8_lookup_calendar cal sid
  · rw [hval, optOr_some, optOr_some]

/-! ## C9 — time normalisation under repetition -/

theorem dropWhile_head?_false (p : Char → Bool) (l : Str) (c : Char)
    (h : (l.dropWhile p).head? = some c) : p c = false := by
  have hd := List.head?_dropWhile_not p l
  rw [h] at hd
  exact hd

theorem dropWhile_eq_self_of_head (p : Char → Bool) (l : Str)
    (h : ∀ c, l.head? = some c → p c = false) : l.dropWhile p = l := by
  cases l with
  | nil => rfl
  | cons a t => exact List.dropWhile_cons_of_neg (by simp [h a rfl])

theorem getLast?_dropWhile (p : Char → Bool) (l : Str) (h : l.dropWhile p ≠ []) :
    (l.dropWhile p).getLast? = l.getLast? := by
  obtain ⟨t, ht⟩ := List.dropWhile_suffix p (l := l)
  conv_rhs => rw [← ht]
  rw [List.getLast?_append_of_ne_nil _ h]

theorem strip_idempotent (l : Str) : stripChars (stripChars l) = stripChars l := by
  rcases hr : stripChars l with _ | ⟨c, t⟩
  · rfl
  · rw [← hr]
    have hm : stripChars l = ((l.dropWhile isPySpace).reverse.dropWhile isPySpace).reverse := rfl
    have hmne : (l.dropWhile isPySpace).reverse.dropWhile isPySpace ≠ [] := by
      intro hnil
      rw [hm, hnil] at hr
      cases hr
    have hhead : ∀ c2, (stripChars l).head? = some c2 → isPySpace c2 = false := by
      intro c2 hc2
      rw [hm, List.head?_reverse] at hc2
      rw [getLast?_dropWhile _ _ hmne, List.getLast?_reverse] at hc2
      exact dropWhile_head?_false _ _ _ hc2
    have hlast : ∀ c2, (stripChars l).getLast? = some c2 → isPySpace c2 = false := by
      intro c2 hc2
      rw [hm, List.getLast?_reverse] at hc2
      exact dropWhile_head?_false _ _ _ hc2
    rw [stripChars, rstripStr, dropWhile_eq_self_of_head _ _ hhead]
    rw [dropWhile_eq_self_of_head _ _ (by
      intro c2 hc2
      rw [List.head?_reverse] at hc2
      exact hlast c2 hc2)]
    exact List.reverse_reverse _

theorem rstrip_append (A B : Str) (c : Char) (hc : isPySpace c = false) :
    rstripStr (A ++ c :: B) = A ++ c :: rstripStr B := by
  rw [rstripStr, List.reverse_append, List.reverse_cons, List.append_assoc,
    List.singleton_append, List.dropWhile_append]
  by_cases hB : (B.reverse.dropWhile isPySpace).isEmpty
  · rw [if_pos hB]
    rw [List.dropWhile_cons_of_neg (by simp [hc])]
    rw [List.reverse_cons, List.reverse_reverse]
    rw [rstripStr, List.isEmpty_iff.mp hB]
    simp
  · rw [if_neg hB]
    rw [List.reverse_append, List.reverse_cons, List.reverse_reverse, rstripStr]
    simp [List.append_assoc]

theorem splitOnColon_ne_nil (l : Str) : splitOnColon l ≠ [] := by
  cases l with
  | nil => simp [splitOnColon]
  | cons c t =>
    rw [splitOnColon]
    by_cases hc : c = ':'
    · simp [hc]
    · rcases h : splitOnColon t with _ | ⟨p, ps⟩ <;> simp [hc, h]

theorem splitOnColon_no_colon (l : Str) (h : ':' ∉ l) : splitOnColon l = [l] := by
  induction l with
  | nil => rfl
  | cons c t ih =>
    have hc : ¬ c = ':' := fun he => h (he ▸ List.mem_cons_self c t)
    have ht := ih fun hm => h (List.mem_cons_of_mem _ hm)
    rw [splitOnColon, if_neg hc, ht]

theorem splitOnColon_append (a b : Str) (h : ':' ∉ a) :
    splitOnColon (a ++ ':' :: b) = a :: splitOnColon b := by
  induction a with
  | nil => rw [List.nil_append, splitOnColon, if_pos rfl]
  | cons c t ih =>
    have hc : ¬ c = ':' := fun he => h (he ▸ List.mem_cons_self c t)
    have ht := ih fun hm => h (List.mem_cons_of_mem _ hm)
    rw [List.cons_append, splitOnColon, if_neg hc, ht]

theorem mem_splitOnColon_no_colon (l : Str) :
    ∀ p ∈ splitOnColon l, ':' ∉ p := by
  induction l with
  | nil =>
    intro p hp
    rw [splitOnColon] at hp
    rcases List.mem_cons.mp hp with rfl | h
    · simp
    · cases h
  | cons c t ih =>
    intro p hp
    rw [splitOnColon] at hp
    by_cases hc : c = ':'
    · rw [if_pos hc] at hp
      rcases List.mem_cons.mp hp with rfl | h
      · simp
      · exact ih p h
    · rw [if_neg hc] at hp
      rcases hsp : splitOnColon t with _ | ⟨q, qs⟩
      · exact absurd hsp (splitOnColon_ne_nil t)
      · rw [hsp] at hp
        rcases List.mem_cons.mp hp with rfl | h
        · intro hm
          rcases List.mem_cons.mp hm with he | hm2
          · exact hc he.symm
          · exact ih q (hsp ▸ List.mem_cons_self q qs) hm2
        · exact ih p (hsp ▸ List.mem_cons_of_mem q h)

theorem rstrip_subset (l : Str) : ∀ c ∈ rstripStr l, c ∈ l := by
  intro c hc
  rw [rstripStr, List.mem_reverse] at hc
  have := (List.dropWhile_suffix isPySpace (l := l.reverse)).subset hc
  exact List.mem_reverse.mp this

theorem getD_mem (l : List α) (i : Nat) (d : α) (h : i < l.length) : l.getD i d ∈ l := by
  induction l generalizing i with
  | nil => cases h
  | cons a t ih =>
    cases i with
    | zero => exact List.mem_cons_self a t
    | succ j =>
      exact List.mem_cons_of_mem a (ih j (by simpa using h))

theorem pad2_facts : ∀ h : Nat, h < 24 →
    pyInt (pad2 h) = some (h : Int) ∧ pad2 h ≠ [] ∧
    (pad2 h).all (fun c => !isPySpace c && !(c == ':')) = true := by
  decide

theorem stripChars_format (h : Nat) (p1 p2 : Str) (hne : pad2 h ≠ [])
    (hall : (pad2 h).all (fun c => !isPySpace c && !(c == ':')) = true) :
    stripChars (formatTime h p1 p2) = pad2 h ++ ':' :: p1 ++ ':' :: rstripStr p2 := by
  have hdw : (formatTime h p1 p2).dropWhile isPySpace = formatTime h p1 p2 := by
    rcases hp : pad2 h with _ | ⟨c, t⟩
    · exact absurd hp hne
    · have hcws : isPySpace c = false := by
        rw [hp, List.all_cons] at hall
        have hc := ((Bool.and_eq_true _ _).mp hall).1
        have := ((Bool.and_eq_true _ _).mp hc).1
        simpa using this
      rw [formatTime, hp, List.cons_append, List.cons_append]
      exact List.dropWhile_cons_of_neg (by simp [hcws])
  rw [stripChars, hdw, formatTime]
  rw [rstrip_append (pad2 h ++ ':' :: p1) p2 ':' (by decide)]

theorem normalizeTime_strip_format (h : Nat) (p1 p2 : Str) (hh : h < 24)
    (h1 : ':' ∉ p1) (h2 : ':' ∉ p2) :
    normalizeTime (some (formatTime h p1 p2))
      = Except.ok (some (stripChars (formatTime h p1 p2))) := by
  obtain ⟨hparse, hne, hall⟩ := pad2_facts h hh
  have hsf := stripChars_format h p1 p2 hne hall
  have hnc : ':' ∉ pad2 h := by
    intro hm
    have hx := List.all_eq_true.mp hall ':' hm
    simp at hx
  have hrc : ':' ∉ rstripStr p2 := fun hm => h2 (rstrip_subset p2 ':' hm)
  have hsplit : splitOnColon (stripChars (formatTime h p1 p2))
      = [pad2 h, p1, rstripStr p2] := by
    rw [hsf, List.append_assoc, List.cons_append]
    rw [splitOnColon_append _ _ hnc, splitOnColon_append _ _ h1,
      splitOnColon_no_colon _ hrc]
  have hemp : (stripChars (formatTime h p1 p2)).isEmpty = false := by
    rw [hsf]
    rcases hp : pad2 h with _ | ⟨c, t⟩
    · exact absurd hp hne
    · rfl
  rw [normalizeTime]
  rw [if_neg (by simp [hemp])]
  rw [hsplit]
  rw [if_neg (by simp)]
  have hg0 : pyInt (([pad2 h, p1, rstripStr p2] : List Str).getD 0 []) = some (h : Int) := by
    rw [show (([pad2 h, p1, rstripStr p2] : List Str).getD 0 []) = pad2 h from rfl]
    exact hparse
  rw [hg0]
  show Except.ok (some (formatTime (((h : Int)) % 24).toNat
      (([pad2 h, p1, rstripStr p2] : List Str).getD 1 [])
      (thirdField [pad2 h, p1, rstripStr p2])))
    = Except.ok (some (stripChars (formatTime h p1 p2)))
  have hmod : (((h : Int)) % 24).toNat = h := by omega
  rw [hmod]
  have hfin : formatTime h (([pad2 h, p1, rstripStr p2] : List Str).getD 1 [])
      (thirdField [pad2 h, p1, rstripStr p2]) = stripChars (formatTime h p1 p2) := by
    rw [hsf]
    rfl
  rw [hfin]

/-- C9, counterexample: on `"0:0:0 :0"` (four colon fields, the third
ending in a space) the first normalisation emits `"00:0:0 "` — the
trailing space of `parts[2]` survives the f-string — while the second
normalisation strips that trailing space and returns `"00:0:0"`.  So
`normalize(normalize(x)) ≠ normalize(x)`: time normalisation is not
idempotent. -/
theorem c9_normalize_time_counterexample :
    normalizeTime (some "0:0:0 :0".toList) = Except.ok (some "00:0:0 ".toList) ∧
    (normalizeTime (some "0:0:0 :0".toList)).bind normalizeTime
      = Except.ok (some "00:0:0".toList) ∧
    (normalizeTime (some "0:0:0 :0".toList)).bind normalizeTime
      ≠ normalizeTime (some "0:0:0 :0".toList) := by
  have e1 : normalizeTime (some "0:0:0 :0".toList)
      = Except.ok (some "00:0:0 ".toList) := rfl
  have e2 : (normalizeTime (some "0:0:0 :0".toList)).bind normalizeTime
      = Except.ok (some "00:0:0".toList) := rfl
  refine ⟨e1, e2, fun hcontra => ?_⟩
  rw [e2, e1] at hcontra
  have hne : ("00:0:0".toList : Str) ≠ "00:0:0 ".toList := by decide
  exact hne (Option.some.inj (Except.ok.inj hcontra))

/-- C9 (amended): a second application of `_normalize_time` returns the
first result with surrounding whitespace re-stripped — so normalisation
is idempotent exactly on the inputs whose normalised form carries no
trailing whitespace (a raised `ValueError` propagates through both
sides).  The only non-idempotent inputs are those with more than three
colon fields whose third field ends in whitespace, where the first pass
emits that whitespace verbatim and the second pass strips it. -/
theorem c9_normalize_time_second_pass (v : Option Str) :
    (normalizeTime v).bind normalizeTime
      = (normalizeTime v).map (Option.map stripChars) := by
  rcases v with _ | s
  · rfl
  · rw [normalizeTime]
    by_cases hemp : (stripChars s).isEmpty
    · rw [if_pos hemp]
      rfl
    · rw [if_neg hemp]
      by_cases hlen : (splitOnColon (stripChars s)).length < 2
      · rw [if_pos hlen]
        show normalizeTime (some (stripChars s))
          = Except.ok (some (stripChars (stripChars s)))
        rw [strip_idempotent]
        rw [normalizeTime]
        rw [if_neg (by rw [strip_idempotent]; exact hemp)]
        rw [if_pos (by rw [strip_idempotent]; exact hlen)]
        rw [strip_idempotent]
      · rw [if_neg hlen]
        rcases hint : pyInt ((splitOnColon (stripChars s)).getD 0 []) with _ | n
        · rfl
        · show normalizeTime (some (formatTime ((n % 24)).toNat
              ((splitOnColon (stripChars s)).getD 1 [])
              (thirdField (splitOnColon (stripChars s)))))
            = Except.ok (some (stripChars (formatTime ((n % 24)).toNat
              ((splitOnColon (stripChars s)).getD 1 [])
              (thirdField (splitOnColon (stripChars s))))))
          apply normalizeTime_strip_format
          · have h0 := Int.emod_nonneg n (by norm_num : (24:Int) ≠ 0)
            have hlt := Int.emod_lt_of_pos n (by norm_num : (0:Int) < 24)
            omega
          · exact mem_splitOnColon_no_colon _ _ (getD_mem _ 1 _ (by omega))
          · rw [thirdField]
            by_cases h3 : 2 < (splitOnColon (stripChars s)).length
            · rw [if_pos h3]
              exact mem_splitOnColon_no_colon _ _ (getD_mem _ 2 _ h3)
            · rw [if_neg h3]
              decide
